/-
Verification of the multi-agent orchestration core of the legal-docs backend:
client-email disambiguation, the human-in-the-loop tool wrapper, event-stream
normalization, the websocket chat loop, supervisor build, and the checkpointer
lifecycle, shallowly embedded from the Python sources.
-/
import Mathlib

namespace LegalDocs

/-! ## Client email lookup (multi_agent_system/agent.py, agent_validation.py) -/

/-- A row of the client table as used by the email lookup: the email column is
nullable, so it is modelled as an optional string. -/
structure Client where
  firstname : String
  lastname : String
  birthdate : String
  email : Option String
  user_id : Nat
deriving Repr, DecidableEq

/-- Accumulating tokenizer over the character list: the first argument is the
remaining input, the second the reversed current token. -/
def wordsAux : List Char → List Char → List String
  | [], acc => if acc.isEmpty then [] else [String.mk acc.reverse]
  | c :: cs, acc =>
    if c.isWhitespace then
      if acc.isEmpty then wordsAux cs []
      else String.mk acc.reverse :: wordsAux cs []
    else wordsAux cs (c :: acc)

/-- Python str.split with no separator: split on whitespace runs, dropping
empty fragments. Leading and trailing whitespace never produces a token, so
the preceding str.strip of the source is absorbed by this definition. -/
def pySplit (s : String) : List String :=
  wordsAux s.data []

/-- parse_full_name from agent.py: strip, split on whitespace, require at
least two parts, return the first two; none models the raised ValueError. -/
def parse_full_name (full_name : String) : Option (String × String) :=
  match pySplit full_name with
  | first :: second :: _ => some (first, second)
  | _ => none

/-- clients_validation from agent_validation.py. The result is an optional
string: none models the Python function returning None, which happens both
when no branch fires and when the unique client has a NULL email column. -/
def clients_validation (clients : List Client) (birthdate : String)
    (client_full_name : String) (second_check : Bool) : Option String :=
  if clients.isEmpty then
    some ("Error: There is no client with name " ++ client_full_name)
  else if clients.length > 1 && birthdate == "" then
    some ("Error: There are several persons with name " ++ client_full_name ++
      ". Specify the birthdate.")
  else if clients.length > 1 && birthdate != "" && second_check then
    some ("Error: There are several persons with name " ++ client_full_name ++
      " and birthdate " ++ birthdate)
  else if clients.length == 1 then
    clients.head?.bind (fun c => c.email)
  else
    none

/-- Python truthiness of an Optional[str] value: None and the empty string are
falsy, every other string is truthy. -/
def truthyStr : Option String → Bool
  | none => false
  | some s => !(s == "")

/-- The database query of get_email_from_database: clients matching first
name, last name and owner user id. -/
def matchingClients (db : List Client) (first_name last_name : String)
    (user_id : Nat) : List Client :=
  db.filter (fun c =>
    c.firstname == first_name && c.lastname == last_name && c.user_id == user_id)

/-- get_email_from_database from agent.py, with the database rendered as the
list of client rows. The surrounding email_db_validation decorator turns the
ValueError of parse_full_name into its message string. -/
def get_email_from_database (db : List Client) (client_full_name : String)
    (user_id : Nat) (birthdate : String) : String :=
  match parse_full_name client_full_name with
  | none => "Error: Invalid full name format. Please provide first and last name."
  | some (first_name, last_name) =>
    let clients := matchingClients db first_name last_name user_id
    let validation_full_name := clients_validation clients birthdate client_full_name false
    if truthyStr validation_full_name then validation_full_name.getD ""
    else
      let clients2 := clients.filter (fun c => c.birthdate == birthdate)
      let validation_birthdate := clients_validation clients2 birthdate client_full_name true
      if truthyStr validation_birthdate then validation_birthdate.getD ""
      else "Error while trying to find client\x27s email"

lemma str_append_ne_empty_left (s t : String) (h : s ≠ "") : s ++ t ≠ "" := by
  intro hc
  apply h
  cases s with
  | mk a =>
    cases t with
    | mk b =>
      have hd : a ++ b = ([] : List Char) := congrArg String.data hc
      rcases List.append_eq_nil.mp hd with ⟨ha, _⟩
      simpa [String.ext_iff] using ha

lemma truthyStr_some (x : String) : truthyStr (some x) = true ↔ x ≠ "" := by
  simp [truthyStr]

lemma truthyStr_some_false (x : String) (h : x ≠ "") : truthyStr (some x) = false ↔ False := by
  simp [truthyStr, h]

/-- C1 counterexample: a database whose name match is a single record with a
NULL email column, looked up with that record's own birthdate. The set R of
records matched by first and last name has size one, yet the lookup does not
return that record's email as the claim states it must: the returned None
email is falsy, both validation results are discarded, and the generic
lookup-failure message is returned. -/
theorem c1_counterexample :
    (matchingClients [⟨"John", "Doe", "1990-01-01", none, 1⟩] "John" "Doe" 1).length = 1 ∧
    get_email_from_database [⟨"John", "Doe", "1990-01-01", none, 1⟩] "John Doe" 1
        "1990-01-01" =
      "Error while trying to find client\x27s email" := by
  decide

/-- C1 (amended): the disambiguation law of the client-email lookup, with the
unique-match clause restricted to records whose email is present and
non-empty; R is the set of rows matching first+last name and owner, B the
optional birthdate filter (empty string means absent). -/
theorem c1_disambiguation_amended
    (db : List Client) (full first second : String) (uid : Nat) (bd : String)
    (hparse : parse_full_name full = some (first, second)) :
    (matchingClients db first second uid = [] →
      get_email_from_database db full uid bd =
        "Error: There is no client with name " ++ full)
  ∧ (∀ c e, matchingClients db first second uid = [c] → c.email = some e → e ≠ "" →
      get_email_from_database db full uid bd = e)
  ∧ (1 < (matchingClients db first second uid).length → bd = "" →
      get_email_from_database db full uid bd =
        "Error: There are several persons with name " ++ full ++ ". Specify the birthdate.")
  ∧ (1 < (matchingClients db first second uid).length → bd ≠ "" →
      1 < ((matchingClients db first second uid).filter (fun c => c.birthdate == bd)).length →
      get_email_from_database db full uid bd =
        "Error: There are several persons with name " ++ full ++ " and birthdate " ++ bd) := by
  refine ⟨?_, ?_, ?_, ?_⟩
  · intro hR
    have hne : "Error: There is no client with name " ++ full ≠ "" :=
      str_append_ne_empty_left _ _ (by decide)
    simp only [get_email_from_database, hparse, hR, clients_validation]
    simp [truthyStr, hne]
  · intro c e hR he hne
    simp only [get_email_from_database, hparse, hR, clients_validation]
    simp [truthyStr, he, hne]
  · intro hlen hbd
    subst hbd
    have hne : "Error: There are several persons with name " ++ full ++
        ". Specify the birthdate." ≠ "" :=
      str_append_ne_empty_left _ _ (str_append_ne_empty_left _ _ (by decide))
    have hemp : (matchingClients db first second uid).isEmpty = false := by
      cases hX : matchingClients db first second uid with
      | nil => rw [hX] at hlen; simp at hlen
      | cons a l => simp
    simp only [get_email_from_database, hparse, clients_validation, hemp, hlen]
    simp [truthyStr, hne, hlen, hemp]
  · intro hlen hbd hlen2
    have hne : "Error: There are several persons with name " ++ full ++
        " and birthdate " ++ bd ≠ "" :=
      str_append_ne_empty_left _ _
        (str_append_ne_empty_left _ _ (str_append_ne_empty_left _ _ (by decide)))
    have hemp : (matchingClients db first second uid).isEmpty = false := by
      cases hX : matchingClients db first second uid with
      | nil => rw [hX] at hlen; simp at hlen
      | cons a l => simp
    have hemp2 :
        ((matchingClients db first second uid).filter
          (fun c => c.birthdate == bd)).isEmpty = false := by
      cases hX : (matchingClients db first second uid).filter (fun c => c.birthdate == bd) with
      | nil => rw [hX] at hlen2; simp at hlen2
      | cons a l => simp
    have hlen1 : ¬ (matchingClients db first second uid).length = 1 := by omega
    simp only [get_email_from_database, hparse, clients_validation, hemp, hemp2, hlen, hlen1,
      hlen2, hbd]
    simp [truthyStr, hne, hlen, hbd, hlen1, hemp, hemp2, hlen2]

/-- C1 witness: the amended theorem applied to a one-record database with a
present, non-empty email. -/
theorem c1_disambiguation_amended_witness :
    get_email_from_database [⟨"John", "Doe", "1990-01-01", some "j@x.com", 1⟩]
      "John Doe" 1 "" = "j@x.com" :=
  (c1_disambiguation_amended [⟨"John", "Doe", "1990-01-01", some "j@x.com", 1⟩]
      "John Doe" "John" "Doe" 1 "" (by decide)).2.1
    ⟨"John", "Doe", "1990-01-01", some "j@x.com", 1⟩ "j@x.com" (by decide) rfl (by decide)

/-! ## Human-in-the-loop tool wrapper (multi_agent_system/tools.py) -/

/-- A Python exception as far as the wrapper can observe it: either the
GraphInterrupt suspension signal or any other exception. -/
inductive PyExn where
  | graphInterrupt (payload : String)
  | other (message : String)
deriving Repr, DecidableEq

/-- The keyword-argument dictionary a gated tool is invoked with: the message
field (the one the email rewrite touches) plus the remaining items. -/
structure ToolInput where
  message : String
  rest : List (String × String)
deriving Repr, DecidableEq

/-- Observable outcome of one run of the wrapped tool: the returned string or
propagated exception, how often the base tool was invoked, and with which
input. -/
structure WrapResult where
  result : Except PyExn String
  toolCalls : Nat
  invokedWith : Option ToolInput
deriving Repr

/-- Substring test on character lists, the Python expression pat in s. -/
def containsSub : List Char → List Char → Bool
  | s@(_ :: tl), pat => pat.isPrefixOf s || containsSub tl pat
  | [], pat => pat.isEmpty

/-- Python str lowercasing (the classification words are ASCII). -/
def pyLower (s : String) : String := String.mk (s.data.map Char.toLower)

/-- Python str.strip: drop whitespace at both ends. -/
def pyStrip (s : String) : String :=
  String.mk (((s.data.dropWhile Char.isWhitespace).reverse.dropWhile Char.isWhitespace).reverse)

/-- Python message.replace of the newline character by the break marker,
rendered character by character: each newline is expanded to the four marker
characters, every other character is kept. -/
def replaceNewlineChars : List Char → List Char
  | [] => []
  | c :: cs =>
    if c == '\x0a' then '<' :: 'b' :: 'r' :: '>' :: replaceNewlineChars cs
    else c :: replaceNewlineChars cs

/-- Python message.replace of one character by a string, on strings. -/
def pyReplaceNewline (s : String) : String :=
  String.mk (replaceNewlineChars s.data)

/-- The input the base tool is invoked with in the proceed branch: for an
email-flavored tool the message field is rewritten first. -/
def proceedInput (email : Bool) (tool_input : ToolInput) : ToolInput :=
  if email then { tool_input with message := pyReplaceNewline tool_input.message }
  else tool_input

/-- The except-clauses of call_tool_with_interrupt: a GraphInterrupt is
re-raised, anything else becomes the literal error string result. -/
def handleWrapExn (e : PyExn) (calls : Nat) (inv : Option ToolInput) : WrapResult :=
  match e with
  | .graphInterrupt p => ⟨.error (.graphInterrupt p), calls, inv⟩
  | .other _ => ⟨.ok "ERROR - Action was not completed due to the internal error.", calls, inv⟩

/-- call_tool_with_interrupt from tools.py at resume time. The interrupt call,
the classification completion call and the base tool are the three effectful
collaborators; each is modelled by its outcome (a value or an exception). -/
def call_tool_with_interrupt
    (interruptCall : Except PyExn String)
    (llmInvoke : String → Except PyExn String)
    (tool : ToolInput → Except PyExn String)
    (email : Bool)
    (tool_input : ToolInput) : WrapResult :=
  match interruptCall with
  | .error e => handleWrapExn e 0 none
  | .ok user_response =>
    match llmInvoke user_response with
    | .error e => handleWrapExn e 0 none
    | .ok content =>
      let intent := pyStrip (pyLower content)
      if containsSub intent.data "proceed".data then
        let input1 := proceedInput email tool_input
        match tool input1 with
        | .ok r => ⟨.ok r, 1, some input1⟩
        | .error e => handleWrapExn e 1 (some input1)
      else if containsSub intent.data "changes".data then
        ⟨.ok ("ACTION CANCELLED - User requested modifications: " ++ user_response ++
          ". Implement desired modifications and retry."), 0, none⟩
      else
        ⟨.ok "ACTION CANCELLED - User cancelled the operation. Abort the execution of operation.",
          0, none⟩

/-- C2 counterexample: for an email-flavored wrapped tool whose message
contains a newline, a proceed reply invokes the base tool exactly once but
NOT with the original input: the message field was rewritten first. -/
theorem c2_counterexample :
    (call_tool_with_interrupt (Except.ok "proceed") (fun r => Except.ok r)
        (fun i => Except.ok i.message) true ⟨"a\x0ab", []⟩).toolCalls = 1 ∧
    (call_tool_with_interrupt (Except.ok "proceed") (fun r => Except.ok r)
        (fun i => Except.ok i.message) true ⟨"a\x0ab", []⟩).invokedWith ≠
      some (⟨"a\x0ab", []⟩ : ToolInput) := by
  decide

/-- C2 (amended): classification response containing proceed (after
lowercasing and stripping) invokes the base tool exactly once, with the
original input except for the email-flavored newline rewrite, and returns its
result; containing changes and not proceed never invokes it and returns the
cancelled-with-modifications message; anything else never invokes it and
returns the cancelled message. -/
theorem c2_hitl_classification_amended
    (user_response content : String) (tool : ToolInput → Except PyExn String)
    (email : Bool) (tool_input : ToolInput) :
    (containsSub (pyStrip (pyLower content)).data "proceed".data = true →
      (call_tool_with_interrupt (Except.ok user_response) (fun _ => Except.ok content)
          tool email tool_input).toolCalls = 1 ∧
      (call_tool_with_interrupt (Except.ok user_response) (fun _ => Except.ok content)
          tool email tool_input).invokedWith = some (proceedInput email tool_input) ∧
      (∀ out, tool (proceedInput email tool_input) = Except.ok out →
        (call_tool_with_interrupt (Except.ok user_response) (fun _ => Except.ok content)
            tool email tool_input).result = Except.ok out))
  ∧ (containsSub (pyStrip (pyLower content)).data "proceed".data = false →
      containsSub (pyStrip (pyLower content)).data "changes".data = true →
      call_tool_with_interrupt (Except.ok user_response) (fun _ => Except.ok content)
          tool email tool_input =
        ⟨Except.ok ("ACTION CANCELLED - User requested modifications: " ++ user_response ++
          ". Implement desired modifications and retry."), 0, none⟩)
  ∧ (containsSub (pyStrip (pyLower content)).data "proceed".data = false →
      containsSub (pyStrip (pyLower content)).data "changes".data = false →
      call_tool_with_interrupt (Except.ok user_response) (fun _ => Except.ok content)
          tool email tool_input =
        ⟨Except.ok
          "ACTION CANCELLED - User cancelled the operation. Abort the execution of operation.",
          0, none⟩) := by
  refine ⟨?_, ?_, ?_⟩
  · intro h
    refine ⟨?_, ?_, ?_⟩
    · cases htool : tool (proceedInput email tool_input) with
      | ok out => simp [call_tool_with_interrupt, h, htool]
      | error e => cases e <;> simp [call_tool_with_interrupt, h, htool, handleWrapExn]
    · cases htool : tool (proceedInput email tool_input) with
      | ok out => simp [call_tool_with_interrupt, h, htool]
      | error e => cases e <;> simp [call_tool_with_interrupt, h, htool, handleWrapExn]
    · intro out hout
      simp [call_tool_with_interrupt, h, hout]
  · intro h1 h2
    simp [call_tool_with_interrupt, h1, h2]
  · intro h1 h2
    simp [call_tool_with_interrupt, h1, h2]

/-- C2 witness: the amended theorem applied at a proceed, a changes and a
cancel classification. -/
theorem c2_hitl_classification_amended_witness :
    (call_tool_with_interrupt (Except.ok "yes") (fun _ => Except.ok "proceed")
        (fun i => Except.ok ("SENT " ++ i.message)) false ⟨"hi", []⟩).toolCalls = 1 ∧
    call_tool_with_interrupt (Except.ok "change subject") (fun _ => Except.ok "changes")
        (fun i => Except.ok ("SENT " ++ i.message)) false ⟨"hi", []⟩ =
      ⟨Except.ok ("ACTION CANCELLED - User requested modifications: " ++ "change subject" ++
        ". Implement desired modifications and retry."), 0, none⟩ ∧
    call_tool_with_interrupt (Except.ok "no") (fun _ => Except.ok "cancel")
        (fun i => Except.ok ("SENT " ++ i.message)) false ⟨"hi", []⟩ =
      ⟨Except.ok
        "ACTION CANCELLED - User cancelled the operation. Abort the execution of operation.",
        0, none⟩ := by
  refine ⟨?_, ?_, ?_⟩
  · exact ((c2_hitl_classification_amended "yes" "proceed" _ false ⟨"hi", []⟩).1 (by decide)).1
  · exact (c2_hitl_classification_amended "change subject" "changes" _ false ⟨"hi", []⟩).2.1
      (by decide) (by decide)
  · exact (c2_hitl_classification_amended "no" "cancel" _ false ⟨"hi", []⟩).2.2
      (by decide) (by decide)

/-- C7: when the wrapped tool is email-flavored and the reply classifies as
proceed, the base tool is invoked with the message field rewritten newline by
newline to the break marker (so no newline survives); a non-email-flavored
tool is invoked with the input unmodified. -/
theorem c7_email_newline_rewrite
    (user_response content : String) (tool : ToolInput → Except PyExn String)
    (tool_input : ToolInput)
    (h : containsSub (pyStrip (pyLower content)).data "proceed".data = true) :
    (call_tool_with_interrupt (Except.ok user_response) (fun _ => Except.ok content)
        tool true tool_input).invokedWith =
      some { tool_input with message := pyReplaceNewline tool_input.message } ∧
    (call_tool_with_interrupt (Except.ok user_response) (fun _ => Except.ok content)
        tool false tool_input).invokedWith = some tool_input ∧
    (∀ s : String, '\x0a' ∉ (pyReplaceNewline s).data) := by
  refine ⟨?_, ?_, ?_⟩
  · cases htool : tool (proceedInput true tool_input) with
    | ok out =>
      simp [call_tool_with_interrupt, h, htool]
      simp [proceedInput]
    | error e =>
      cases e <;>
        · simp [call_tool_with_interrupt, h, htool, handleWrapExn]
          simp [proceedInput]
  · cases htool : tool (proceedInput false tool_input) with
    | ok out =>
      simp [call_tool_with_interrupt, h, htool]
      simp [proceedInput]
    | error e =>
      cases e <;>
        · simp [call_tool_with_interrupt, h, htool, handleWrapExn]
          simp [proceedInput]
  · intro s
    show '\x0a' ∉ replaceNewlineChars s.data
    induction s.data with
    | nil => simp [replaceNewlineChars]
    | cons c cs ih =>
      by_cases hc : c = '\x0a'
      · subst hc
        simp [replaceNewlineChars, ih]
      · simp [replaceNewlineChars, hc, ih]
        intro hx
        exact hc hx.symm

/-- C7 witness: the rewrite theorem applied to a concrete two-line message. -/
theorem c7_email_newline_rewrite_witness :
    (call_tool_with_interrupt (Except.ok "ok") (fun _ => Except.ok "proceed")
        (fun i => Except.ok i.message) true ⟨"a\x0ab", []⟩).invokedWith =
      some (⟨"a<br>b", []⟩ : ToolInput) :=
  (c7_email_newline_rewrite "ok" "proceed" (fun i => Except.ok i.message)
    ⟨"a\x0ab", []⟩ (by decide)).1

/-! ## Event stream normalization (multi_agent_system/system_manager.py) -/

/-- Python str.startswith. -/
def pyStartsWith (s pat : String) : Bool := pat.data.isPrefixOf s.data

/-- What the normalizer observes of one message of a node state: whether it
is AI-authored, its content, its optional name attribute, and the optional
finish_reason of its response metadata. -/
structure GraphMessage where
  isAI : Bool
  content : String
  name : Option String
  finishReason : Option String
deriving Repr, DecidableEq

/-- A normalized event of the tagged websocket protocol. -/
inductive AgentEvent where
  | interrupt (content : String)
  | complete (content : String) (agent : Option String)
  | message (content : String) (agent : Option String)
deriving Repr, DecidableEq

/-- One raw graph event: a dict that may carry the reserved interrupt key
(whose first payload value is kept) and otherwise maps node names to node
states; a node state is none when it is not a non-empty dict, otherwise its
messages list. -/
structure RawEvent where
  interruptSignal : Option String
  nodes : List (String × Option (List GraphMessage))
deriving Repr

/-- The _process_node_messages method: reserved node names, invalid states,
empty message lists and last messages that are not non-empty AI messages
yield no event; a supervisor message whose finish_reason is STOP yields a
complete event; every other qualifying message yields a message event. The
agent tag is the name attribute of the message, as getattr with a default
returns the existing attribute even when its value is null. -/
def processNodeMessages (node_name : String)
    (node_state : Option (List GraphMessage)) : Option AgentEvent :=
  if pyStartsWith node_name "__" then none
  else
    match node_state with
    | none => none
    | some messages =>
      match messages.getLast? with
      | none => none
      | some last =>
        if last.content == "" || !last.isAI then none
        else
          let message_name := last.name
          if node_name == "supervisor" && last.finishReason == some "STOP" then
            some (.complete last.content message_name)
          else
            some (.message last.content message_name)

/-- The inner for-loop over the items of a raw event: collects the yielded
events and reports whether a complete event stopped the consumption. -/
def processNodes : List (String × Option (List GraphMessage)) → List AgentEvent × Bool
  | [] => ([], false)
  | (node_name, node_state) :: rest =>
    match processNodeMessages node_name node_state with
    | none => processNodes rest
    | some ev =>
      match ev with
      | .complete c a => ([AgentEvent.complete c a], true)
      | _ =>
        let (evs, halted) := processNodes rest
        (ev :: evs, halted)

/-- The stream_agent_events consumption loop (resume_agent_after_interrupt
consumes identically): an interrupt signal yields one interrupt event and
stops; otherwise the nodes of the event are processed in order and a
complete event stops the whole consumption. -/
def stream_agent_events : List RawEvent → List AgentEvent
  | [] => []
  | e :: rest =>
    match e.interruptSignal with
    | some payload => [AgentEvent.interrupt payload]
    | none =>
      let (evs, halted) := processNodes e.nodes
      if halted then evs else evs ++ stream_agent_events rest

/-- C3: event normalization is a function of the raw event sequence (hence
deterministic); reserved node names and non-qualifying node states yield no
event; an interrupt signal yields exactly one interrupt event and halts; a
supervisor message with finish reason STOP yields exactly one complete event
and halts; every other qualifying AI message yields one message event. -/
theorem c3_event_normalization :
    (∀ name st, pyStartsWith name "__" = true → processNodeMessages name st = none)
  ∧ (∀ name, processNodeMessages name none = none)
  ∧ (∀ name, processNodeMessages name (some []) = none)
  ∧ (∀ name msgs last, msgs.getLast? = some last →
      last.isAI = false ∨ last.content = "" → processNodeMessages name (some msgs) = none)
  ∧ (∀ p nodes rest,
      stream_agent_events (⟨some p, nodes⟩ :: rest) = [AgentEvent.interrupt p])
  ∧ (∀ msgs last nodes restEvents, msgs.getLast? = some last →
      last.isAI = true → last.content ≠ "" → last.finishReason = some "STOP" →
      stream_agent_events (⟨none, ("supervisor", some msgs) :: nodes⟩ :: restEvents) =
        [AgentEvent.complete last.content last.name])
  ∧ (∀ name msgs last, msgs.getLast? = some last →
      last.isAI = true → last.content ≠ "" → pyStartsWith name "__" = false →
      ¬(name = "supervisor" ∧ last.finishReason = some "STOP") →
      processNodeMessages name (some msgs) =
        some (AgentEvent.message last.content last.name)) := by
  refine ⟨?_, ?_, ?_, ?_, ?_, ?_, ?_⟩
  · intro name st h
    simp [processNodeMessages, h]
  · intro name
    simp [processNodeMessages]
  · intro name
    simp [processNodeMessages]
  · intro name msgs last hlast h
    rcases h with h | h <;> simp [processNodeMessages, hlast, h]
  · intro p nodes rest
    simp [stream_agent_events]
  · intro msgs last nodes restEvents hlast hAI hcontent hfin
    have hsw : pyStartsWith "supervisor" "__" = false := by decide
    simp [stream_agent_events, processNodes, processNodeMessages, hsw, hlast, hAI,
      hcontent, hfin]
  · intro name msgs last hlast hAI hcontent hsw hns
    simp [processNodeMessages, hsw, hlast, hAI, hcontent]
    intro hname hstop
    exact hns ⟨hname, hstop⟩

/-- C3 witness: the normalization theorem applied to concrete events of each
kind. -/
theorem c3_event_normalization_witness :
    processNodeMessages "__start__" (some [⟨true, "hi", none, none⟩]) = none ∧
    stream_agent_events
      [⟨some "check", [("supervisor", some [⟨true, "m", none, none⟩])]⟩, ⟨none, []⟩] =
      [AgentEvent.interrupt "check"] ∧
    stream_agent_events
      [⟨none, [("supervisor", some [⟨true, "done", some "supervisor", some "STOP"⟩])]⟩,
       ⟨none, [("x", some [⟨true, "later", none, none⟩])]⟩] =
      [AgentEvent.complete "done" (some "supervisor")] ∧
    processNodeMessages "email_agent" (some [⟨true, "msg", some "email_agent", none⟩]) =
      some (AgentEvent.message "msg" (some "email_agent")) := by
  refine ⟨?_, ?_, ?_, ?_⟩
  · exact c3_event_normalization.1 "__start__" (some [⟨true, "hi", none, none⟩]) (by decide)
  · exact c3_event_normalization.2.2.2.2.1 "check"
      [("supervisor", some [⟨true, "m", none, none⟩])] [⟨none, []⟩]
  · exact c3_event_normalization.2.2.2.2.2.1
      [⟨true, "done", some "supervisor", some "STOP"⟩]
      ⟨true, "done", some "supervisor", some "STOP"⟩ []
      [⟨none, [("x", some [⟨true, "later", none, none⟩])]⟩] rfl rfl (by decide) rfl
  · exact c3_event_normalization.2.2.2.2.2.2 "email_agent"
      [⟨true, "msg", some "email_agent", none⟩] ⟨true, "msg", some "email_agent", none⟩
      rfl rfl (by decide) (by decide) (by decide)

/-! ## WebSocket chat loop (app/routers/ai_chat_ws.py) -/

/-- Which supervisor operation one loop iteration dispatches to. -/
inductive AgentCall where
  | stream (message : String)
  | resume (payload : String)
deriving Repr, DecidableEq

/-- Observable outcome of one iteration of the chat while-loop: frames sent,
the dispatched operation if any, the prefix of agent events consumed, and the
interrupt mode left for the next iteration. -/
structure ChatStep where
  sent : List String
  call : Option AgentCall
  consumed : List AgentEvent
  newMode : Bool
deriving Repr, DecidableEq

def MAX_MESSAGE_LENGTH : Nat := 40000

/-- The inner async-for over the event stream: interrupt sends the interrupt
frame, sets interrupt mode and breaks; complete sends the final frame, clears
the mode and breaks; message sends an update frame and continues. Returns
frames sent, events consumed and the resulting interrupt mode (the mode is
false when the loop is entered, in both dispatch branches). -/
def consumeEvents : List AgentEvent → List String × List AgentEvent × Bool
  | [] => ([], [], false)
  | e :: rest =>
    match e with
    | .interrupt c => (["Agent [INTERRUPT]: " ++ c ++ "\x0a"], [e], true)
    | .complete c _ => (["Agent: " ++ c ++ "\x0a"], [e], false)
    | .message c _ =>
      (("Agent [UPDATE]: " ++ c ++ "\x0a") :: (consumeEvents rest).1,
        e :: (consumeEvents rest).2.1, (consumeEvents rest).2.2)

/-- One iteration of the chat loop of the websocket router: an oversized
frame (the literal message interpolates MAX_MESSAGE_LENGTH = 40000) is
answered with an inline error frame and no turn is started; otherwise the
frame is echoed and dispatched to resume when interrupt mode is set, to
stream when not, and the resulting event stream is consumed. -/
def chatStep (interrupt_mode : Bool) (data : String)
    (agentEvents : List AgentEvent) : ChatStep :=
  if data.length > MAX_MESSAGE_LENGTH then
    { sent := ["Error: Message too long. Maximum 40000 characters allowed.\x0a"],
      call := none, consumed := [], newMode := interrupt_mode }
  else
    let call := if interrupt_mode then AgentCall.resume data else AgentCall.stream data
    { sent := ("User: " ++ data ++ "\x0a") :: (consumeEvents agentEvents).1,
      call := some call,
      consumed := (consumeEvents agentEvents).2.1,
      newMode := (consumeEvents agentEvents).2.2 }

/-- The chat while-loop over a sequence of inbound frames, each paired with
the agent events its dispatched operation would produce. -/
def chatRun : Bool → List (String × List AgentEvent) → List String
  | _, [] => []
  | mode, (d, evs) :: rest => (chatStep mode d evs).sent ++ chatRun (chatStep mode d evs).newMode rest

/-- Number of interrupt events in a list of normalized events. -/
def interruptCount (evs : List AgentEvent) : Nat :=
  (evs.filter (fun e => match e with | .interrupt _ => true | _ => false)).length

lemma consumeEvents_spec (evs : List AgentEvent) :
    interruptCount (consumeEvents evs).2.1 ≤ 1 ∧
    ((consumeEvents evs).2.2 = true ↔
      ∃ c, (consumeEvents evs).2.1.getLast? = some (AgentEvent.interrupt c)) := by
  induction evs with
  | nil => simp [consumeEvents, interruptCount]
  | cons e rest ih =>
    cases e with
    | interrupt c => simp [consumeEvents, interruptCount]
    | complete c a => simp [consumeEvents, interruptCount]
    | message c a =>
      refine ⟨?_, ?_⟩
      · simpa [consumeEvents, interruptCount] using ih.1
      · cases hcs : (consumeEvents rest).2.1 with
        | nil =>
          have h2 := ih.2
          rw [hcs] at h2
          simp [consumeEvents, hcs, h2]
        | cons x xs =>
          have h2 := ih.2
          rw [hcs] at h2
          simp [consumeEvents, hcs, h2, List.getLast?_cons_cons]

/-- C4: while an interrupt is outstanding (interrupt mode set), an inbound
frame of admissible length is dispatched to the resume operation with the
frame as the literal payload, never to stream; each iteration consumes at
most one interrupt event; and the outstanding-interrupt mode after the
iteration is set exactly when the consumed events end with a fresh
interrupt, so the resume itself clears it. -/
theorem c4_interrupt_resume_invariant
    (data : String) (evs : List AgentEvent) (h : data.length ≤ MAX_MESSAGE_LENGTH) :
    (chatStep true data evs).call = some (AgentCall.resume data) ∧
    (∀ mode d e, interruptCount (chatStep mode d e).consumed ≤ 1) ∧
    ((chatStep true data evs).newMode = true ↔
      ∃ c, (chatStep true data evs).consumed.getLast? = some (AgentEvent.interrupt c)) := by
  have hc : ¬ (data.length > MAX_MESSAGE_LENGTH) := by omega
  refine ⟨?_, ?_, ?_⟩
  · simp [chatStep, hc]
  · intro mode d e
    by_cases hd : d.length > MAX_MESSAGE_LENGTH
    · simp [chatStep, hd, interruptCount]
    · simp [chatStep, hd]
      exact (consumeEvents_spec e).1
  · simp [chatStep, hc]
    exact (consumeEvents_spec evs).2

/-- C4 witness: a resume dispatch at a concrete in-flight interrupt. -/
theorem c4_interrupt_resume_invariant_witness :
    (chatStep true "ok" [AgentEvent.interrupt "x"]).call =
      some (AgentCall.resume "ok") :=
  (c4_interrupt_resume_invariant "ok" [AgentEvent.interrupt "x"] (by decide)).1

/-- A frame one character above the ceiling. -/
def bigMsg : String := String.mk (List.replicate 40001 'a')

lemma bigMsg_length : bigMsg.length = 40001 := by
  unfold bigMsg
  show (List.replicate 40001 'a').length = 40001
  exact List.length_replicate 40001 'a'

lemma bigMsg_big : bigMsg.length > MAX_MESSAGE_LENGTH := by
  rw [bigMsg_length]
  decide

/-- C9: an inbound frame longer than 40000 characters is answered with the
single inline error frame, no stream or resume call is dispatched, the
interrupt mode is unchanged, and the loop goes on to process the following
frames. -/
theorem c9_oversized_frame_rejected
    (mode : Bool) (data : String) (evs : List AgentEvent)
    (h : data.length > MAX_MESSAGE_LENGTH) :
    chatStep mode data evs =
      ⟨["Error: Message too long. Maximum 40000 characters allowed.\x0a"], none, [], mode⟩ ∧
    (∀ rest, chatRun mode ((data, evs) :: rest) =
      "Error: Message too long. Maximum 40000 characters allowed.\x0a" :: chatRun mode rest) := by
  refine ⟨?_, ?_⟩
  · simp [chatStep, h]
  · intro rest
    simp [chatRun, chatStep, h]

/-- C9 witness: the rejection theorem applied to a concrete 40001-character
frame. -/
theorem c9_oversized_frame_rejected_witness :
    chatStep false bigMsg [] =
      ⟨["Error: Message too long. Maximum 40000 characters allowed.\x0a"], none, [], false⟩ :=
  (c9_oversized_frame_rejected false bigMsg [] bigMsg_big).1

/-! ## Supervisor build (system_manager.py build, utils.py safe_create_agent) -/

/-- What build observes of a sub-agent manager: its agent_name and whether
its create_agent call succeeds. For the email and calendar managers
create_agent raises the typed AgentInternalError when the Google credentials
are absent, for the legal-docs manager when its token is absent; any other
create_agent failure is re-raised as the same typed error, so safe_create
only ever sees success or AgentInternalError. -/
structure AgentManager where
  agent_name : String
  creates : Bool
deriving Repr, DecidableEq

/-- Name of the handoff tool built in each manager constructor. -/
def handoffToolName (agent_name : String) : String := "assign_task_to_" ++ agent_name

/-- The mutable lists and build_info map that build threads through
safe_create_agent. -/
structure BuildState where
  built_agents : List String
  built_handoff_tools : List String
  build_info : List (String × Bool)
deriving Repr, DecidableEq

/-- safe_create_agent from utils.py: on success append the agent and its
handoff tool and record true; on the typed internal error record false. -/
def safe_create_agent (m : AgentManager) (st : BuildState) : BuildState :=
  if m.creates then
    { built_agents := st.built_agents ++ [m.agent_name],
      built_handoff_tools := st.built_handoff_tools ++ [handoffToolName m.agent_name],
      build_info := st.build_info ++ [(m.agent_name, true)] }
  else
    { st with build_info := st.build_info ++ [(m.agent_name, false)] }

/-- The supervisor as build constructs it: the successfully built agents and
their handoff tools. -/
structure SupervisorSystem where
  agents : List String
  handoff_tools : List String
deriving Repr, DecidableEq

instance {ε α : Type} [DecidableEq ε] [DecidableEq α] : DecidableEq (Except ε α) := fun x y =>
  match x, y with
  | Except.ok a, Except.ok b =>
    if h : a = b then Decidable.isTrue (congrArg Except.ok h)
    else Decidable.isFalse (fun hc => h (by cases hc; rfl))
  | Except.ok _, Except.error _ => Decidable.isFalse (fun hc => Except.noConfusion hc)
  | Except.error _, Except.ok _ => Decidable.isFalse (fun hc => Except.noConfusion hc)
  | Except.error e, Except.error f =>
    if h : e = f then Decidable.isTrue (congrArg Except.error h)
    else Decidable.isFalse (fun hc => h (by cases hc; rfl))

/-- SupervisorSystemManager.build: run safe_create_agent over the three
managers in their fixed order, raise the typed error when no agent was
built, otherwise construct the supervisor from the built agents and handoff
tools. The error value models the raised AgentInternalError. -/
def build (emailOk calendarOk legalOk : Bool) : BuildState × Except String SupervisorSystem :=
  let managers : List AgentManager :=
    [⟨"email_agent", emailOk⟩, ⟨"calendar_agent", calendarOk⟩,
     ⟨"legal_docs_app_agent", legalOk⟩]
  let st := managers.foldl (fun s m => safe_create_agent m s) ⟨[], [], []⟩
  if st.built_agents.isEmpty then
    (st, Except.error "Failed to build any agents - cannot create supervisor system")
  else
    (st, Except.ok ⟨st.built_agents, st.built_handoff_tools⟩)

/-- C5: for every success pattern of the three sub-agent builders, build
records exactly the per-agent outcomes in build_info; when at least one
succeeds it completes without raising and constructs the supervisor from
exactly the successful agents and their handoff tools, in order; when none
succeeds it raises the typed failed-to-build-any-agents error and no
supervisor is constructed. -/
theorem c5_build_partial_total_failure :
    ∀ e c l : Bool,
      (build e c l).1.build_info =
        [("email_agent", e), ("calendar_agent", c), ("legal_docs_app_agent", l)] ∧
      (build e c l).2 =
        (if e || c || l then
          Except.ok
            ⟨(if e then ["email_agent"] else []) ++ (if c then ["calendar_agent"] else []) ++
              (if l then ["legal_docs_app_agent"] else []),
             (if e then [handoffToolName "email_agent"] else []) ++
              (if c then [handoffToolName "calendar_agent"] else []) ++
              (if l then [handoffToolName "legal_docs_app_agent"] else [])⟩
        else Except.error "Failed to build any agents - cannot create supervisor system") := by
  decide

/-! ## Checkpointer lifecycle (multi_agent_system/database.py) -/

/-- The module-level state of database.py plus instrumentation: the global
connection pool and checkpointer handle (identified by creation counters),
how many pools and saver handles were ever constructed, how often the
one-time schema setup ran, and whether the pool was closed. -/
structure CPState where
  pool : Option Nat
  checkpointer : Option Nat
  poolsCreated : Nat
  saversCreated : Nat
  setupRuns : Nat
  poolClosed : Bool
deriving Repr, DecidableEq

/-- The initial module state: both globals are None. -/
def initialCPState : CPState := ⟨none, none, 0, 0, 0, false⟩

/-- get_checkpointer from database.py, run to completion without
interleaving: if the handle exists return it, else create the pool if
absent, construct the saver handle over it, run the schema setup once and
return the handle. -/
def get_checkpointer (s : CPState) : CPState × Nat :=
  match s.checkpointer with
  | some h => (s, h)
  | none =>
    let s1 :=
      if s.pool.isNone then
        { s with pool := some s.poolsCreated, poolsCreated := s.poolsCreated + 1 }
      else s
    let h := s1.saversCreated
    ({ s1 with checkpointer := some h, saversCreated := h + 1, setupRuns := s1.setupRuns + 1 }, h)

/-- close_checkpointer from database.py: closes the pool when present; the
module-level pool and checkpointer variables are NOT reset. -/
def close_checkpointer (s : CPState) : CPState :=
  if s.pool.isSome then { s with poolClosed := true } else s

/-- N sequential acquire calls, returning the final state and the list of
returned handles. -/
def acquireSeq : Nat → CPState → CPState × List Nat
  | 0, s => (s, [])
  | n + 1, s =>
    ((acquireSeq n (get_checkpointer s).1).1,
      (get_checkpointer s).2 :: (acquireSeq n (get_checkpointer s).1).2)

/-- The steady module state after the first successful acquire. -/
def steadyCP : CPState := ⟨some 0, some 0, 1, 1, 1, false⟩

lemma get_checkpointer_initial : get_checkpointer initialCPState = (steadyCP, 0) := rfl

lemma get_checkpointer_steady : get_checkpointer steadyCP = (steadyCP, 0) := rfl

lemma acquireSeq_steady (m : Nat) : acquireSeq m steadyCP = (steadyCP, List.replicate m 0) := by
  induction m with
  | zero => rfl
  | succ k ih => simp [acquireSeq, get_checkpointer_steady, ih, List.replicate_succ]

lemma steadyCP_poolsCreated : steadyCP.poolsCreated = 1 := rfl

lemma steadyCP_setupRuns : steadyCP.setupRuns = 1 := rfl

/-- Program counter of one asynchronous get_checkpointer call: not yet
started; suspended inside the awaited setup call (the handle was already
published to the global before the await); or returned with a handle. The
code up to the setup await has no suspension point, so it is one atomic
step. -/
inductive TaskPC where
  | ready
  | inSetup (h : Nat)
  | finished (h : Nat)
deriving Repr, DecidableEq

def isFinished : TaskPC → Bool
  | .finished _ => true
  | _ => false

/-- One cooperative step of one get_checkpointer task: a ready task either
returns the published handle immediately or creates pool and handle and
suspends into setup; a suspended task finishes its setup and returns its
handle. -/
def stepTask : CPState → TaskPC → CPState × TaskPC
  | s, .finished h => (s, .finished h)
  | s, .inSetup h => ({ s with setupRuns := s.setupRuns + 1 }, .finished h)
  | s, .ready =>
    match s.checkpointer with
    | some h => (s, .finished h)
    | none =>
      let s1 :=
        if s.pool.isNone then
          { s with pool := some s.poolsCreated, poolsCreated := s.poolsCreated + 1 }
        else s
      let h := s1.saversCreated
      ({ s1 with checkpointer := some h, saversCreated := h + 1 }, .inSetup h)

/-- Run a cooperative schedule: each entry names the task that takes the next
step (out-of-range entries are no-ops). -/
def runSchedule : List Nat → CPState → List TaskPC → CPState × List TaskPC
  | [], s, tasks => (s, tasks)
  | i :: sched, s, tasks =>
    match tasks.get? i with
    | none => runSchedule sched s tasks
    | some t => runSchedule sched (stepTask s t).1 (tasks.set i (stepTask s t).2)

/-- The interleaving invariant: either nothing has started (both globals
None, no counters moved, every task ready), or the first task through has
published pool 0 and handle 0, the pool and handle were each created once,
every task is ready, suspended on handle 0 or finished with handle 0, and
the schema setup ran exactly once counting the still-suspended creator. -/
def CPInv (s : CPState) (tasks : List TaskPC) : Prop :=
  (s.checkpointer = none ∧ s.pool = none ∧ s.poolsCreated = 0 ∧ s.saversCreated = 0 ∧
    s.setupRuns = 0 ∧ ∀ t ∈ tasks, t = TaskPC.ready)
  ∨ (s.checkpointer = some 0 ∧ s.pool = some 0 ∧ s.poolsCreated = 1 ∧ s.saversCreated = 1 ∧
      (∀ t ∈ tasks, t = TaskPC.ready ∨ t = TaskPC.inSetup 0 ∨ t = TaskPC.finished 0) ∧
      s.setupRuns + (tasks.filter (fun t => t == TaskPC.inSetup 0)).length = 1)

lemma filter_length_set {α : Type} (p : α → Bool) :
    ∀ (l : List α) (i : Nat) (t x : α), l.get? i = some t →
      ((l.set i x).filter p).length + (if p t then 1 else 0) =
        (l.filter p).length + (if p x then 1 else 0) := by
  intro l
  induction l with
  | nil => intro i t x h; simp at h
  | cons a as ih =>
    intro i t x h
    cases i with
    | zero =>
      have h0 : a = t := Option.some.inj h
      subst h0
      cases hpa : p a <;> cases hpx : p x <;>
        simp [List.set, List.filter, hpa, hpx]
    | succ n =>
      have h2 : as.get? n = some t := h
      have hrec := ih n t x h2
      cases hpa : p a <;>
        · simp [List.set, List.filter, hpa]
          omega

lemma cpinv_preserved (s : CPState) (tasks : List TaskPC) (i : Nat) (t : TaskPC)
    (hget : tasks.get? i = some t) (hInv : CPInv s tasks) :
    CPInv (stepTask s t).1 (tasks.set i (stepTask s t).2) := by
  have hmem : t ∈ tasks := List.get?_mem hget
  rcases hInv with ⟨hc, hp, hpc, hsc, hsr, hall⟩ | ⟨hc, hp, hpc, hsc, hall, hcount⟩
  · have ht : t = TaskPC.ready := hall t hmem
    subst ht
    have hstep : stepTask s TaskPC.ready =
        ({ pool := some 0, checkpointer := some 0, poolsCreated := 1, saversCreated := 1,
           setupRuns := s.setupRuns, poolClosed := s.poolClosed }, TaskPC.inSetup 0) := by
      simp [stepTask, hc, hp, hpc, hsc]
    rw [hstep]
    right
    refine ⟨rfl, rfl, rfl, rfl, ?_, ?_⟩
    · intro u hu
      rcases List.mem_or_eq_of_mem_set hu with hold | hnew
      · exact Or.inl (hall u hold)
      · exact Or.inr (Or.inl hnew)
    · have hflen := filter_length_set (fun u => u == TaskPC.inSetup 0) tasks i
        TaskPC.ready (TaskPC.inSetup 0) hget
      have hnil : tasks.filter (fun u => u == TaskPC.inSetup 0) = [] := by
        apply List.filter_eq_nil_iff.mpr
        intro a ha
        rw [hall a ha]
        decide
      rw [hnil] at hflen
      simp at hflen
      simp [hsr, hflen]
  · rcases hall t hmem with ht | ht | ht
    · subst ht
      have hstep : stepTask s TaskPC.ready = (s, TaskPC.finished 0) := by
        simp [stepTask, hc]
      rw [hstep]
      right
      refine ⟨hc, hp, hpc, hsc, ?_, ?_⟩
      · intro u hu
        rcases List.mem_or_eq_of_mem_set hu with hold | hnew
        · exact hall u hold
        · exact Or.inr (Or.inr hnew)
      · have hflen := filter_length_set (fun u => u == TaskPC.inSetup 0) tasks i
          TaskPC.ready (TaskPC.finished 0) hget
        simp at hflen
        simp
        omega
    · subst ht
      have hstep : stepTask s (TaskPC.inSetup 0) =
          ({ s with setupRuns := s.setupRuns + 1 }, TaskPC.finished 0) := by
        simp [stepTask]
      rw [hstep]
      right
      refine ⟨hc, hp, hpc, hsc, ?_, ?_⟩
      · intro u hu
        rcases List.mem_or_eq_of_mem_set hu with hold | hnew
        · exact hall u hold
        · exact Or.inr (Or.inr hnew)
      · have hflen := filter_length_set (fun u => u == TaskPC.inSetup 0) tasks i
          (TaskPC.inSetup 0) (TaskPC.finished 0) hget
        simp at hflen
        simp
        omega
    · subst ht
      have hstep : stepTask s (TaskPC.finished 0) = (s, TaskPC.finished 0) := by
        simp [stepTask]
      rw [hstep]
      right
      refine ⟨hc, hp, hpc, hsc, ?_, ?_⟩
      · intro u hu
        rcases List.mem_or_eq_of_mem_set hu with hold | hnew
        · exact hall u hold
        · exact Or.inr (Or.inr hnew)
      · have hflen := filter_length_set (fun u => u == TaskPC.inSetup 0) tasks i
          (TaskPC.finished 0) (TaskPC.finished 0) hget
        simp at hflen
        simp
        omega

lemma runSchedule_inv (sched : List Nat) (s : CPState) (tasks : List TaskPC)
    (hInv : CPInv s tasks) :
    CPInv (runSchedule sched s tasks).1 (runSchedule sched s tasks).2 := by
  induction sched generalizing s tasks with
  | nil => simpa [runSchedule] using hInv
  | cons i sched ih =>
    cases hget : tasks.get? i with
    | none =>
      simp only [runSchedule, hget]
      exact ih s tasks hInv
    | some t =>
      have h1 := cpinv_preserved s tasks i t hget hInv
      simp only [runSchedule, hget]
      exact ih _ _ h1

lemma runSchedule_length (sched : List Nat) (s : CPState) (tasks : List TaskPC) :
    (runSchedule sched s tasks).2.length = tasks.length := by
  induction sched generalizing s tasks with
  | nil => simp [runSchedule]
  | cons i sched ih =>
    cases hget : tasks.get? i with
    | none =>
      simp only [runSchedule, hget]
      exact ih s tasks
    | some t =>
      simp only [runSchedule, hget]
      rw [ih, List.length_set]

/-- C6: acquiring the checkpointer more than once without a release returns
the same store handle each time and creates the pool and runs the schema
setup exactly once — both for N sequential calls and for every cooperative
interleaving of N concurrent calls (the only suspension point inside
get_checkpointer is the awaited schema setup, which happens after the handle
is published). -/
theorem c6_checkpointer_idempotent_acquire :
    (∀ n : Nat, 1 ≤ n →
      (acquireSeq n initialCPState).2 = List.replicate n 0 ∧
      (acquireSeq n initialCPState).1.poolsCreated = 1 ∧
      (acquireSeq n initialCPState).1.setupRuns = 1)
  ∧ (∀ (nTasks : Nat) (sched : List Nat), 1 ≤ nTasks →
      (∀ t ∈ (runSchedule sched initialCPState (List.replicate nTasks TaskPC.ready)).2,
        isFinished t = true) →
      (∀ t ∈ (runSchedule sched initialCPState (List.replicate nTasks TaskPC.ready)).2,
        t = TaskPC.finished 0) ∧
      (runSchedule sched initialCPState (List.replicate nTasks TaskPC.ready)).1.poolsCreated = 1 ∧
      (runSchedule sched initialCPState (List.replicate nTasks TaskPC.ready)).1.setupRuns = 1) := by
  constructor
  · intro n hn
    obtain ⟨m, rfl⟩ : ∃ m, n = m + 1 := ⟨n - 1, by omega⟩
    refine ⟨?_, ?_, ?_⟩ <;>
      simp [acquireSeq, get_checkpointer_initial, acquireSeq_steady, List.replicate_succ,
        steadyCP_poolsCreated, steadyCP_setupRuns]
  · intro nTasks sched hn hfin
    have hInv0 : CPInv initialCPState (List.replicate nTasks TaskPC.ready) :=
      Or.inl ⟨rfl, rfl, rfl, rfl, rfl, fun t ht => List.eq_of_mem_replicate ht⟩
    have hInv := runSchedule_inv sched initialCPState (List.replicate nTasks TaskPC.ready) hInv0
    have hlen : (runSchedule sched initialCPState
        (List.replicate nTasks TaskPC.ready)).2.length = nTasks := by
      rw [runSchedule_length, List.length_replicate]
    rcases hInv with ⟨hc, hp, hpc, hsc, hsr, hall⟩ | ⟨hc, hp, hpc, hsc, hall, hcount⟩
    · exfalso
      obtain ⟨t0, ht0⟩ := List.exists_mem_of_length_pos
        (show 0 < (runSchedule sched initialCPState
          (List.replicate nTasks TaskPC.ready)).2.length by omega)
      have h1 := hall t0 ht0
      have h2 := hfin t0 ht0
      rw [h1] at h2
      simp [isFinished] at h2
    · have hallfin : ∀ t ∈ (runSchedule sched initialCPState
          (List.replicate nTasks TaskPC.ready)).2, t = TaskPC.finished 0 := by
        intro t ht
        rcases hall t ht with h | h | h
        · exfalso
          have h2 := hfin t ht
          rw [h] at h2
          simp [isFinished] at h2
        · exfalso
          have h2 := hfin t ht
          rw [h] at h2
          simp [isFinished] at h2
        · exact h
      refine ⟨hallfin, hpc, ?_⟩
      have hnil : (runSchedule sched initialCPState
          (List.replicate nTasks TaskPC.ready)).2.filter (fun u => u == TaskPC.inSetup 0) = [] := by
        apply List.filter_eq_nil_iff.mpr
        intro a ha
        rw [hallfin a ha]
        decide
      rw [hnil] at hcount
      simpa using hcount

/-- C6 witness: two sequential acquires, and the schedule in which a second
caller overtakes the first while it awaits the schema setup. -/
theorem c6_checkpointer_idempotent_acquire_witness :
    ((acquireSeq 2 initialCPState).2 = [0, 0] ∧
      (acquireSeq 2 initialCPState).1.setupRuns = 1) ∧
    ((runSchedule [0, 1, 0] initialCPState [TaskPC.ready, TaskPC.ready]).1.poolsCreated = 1 ∧
      (runSchedule [0, 1, 0] initialCPState [TaskPC.ready, TaskPC.ready]).1.setupRuns = 1) := by
  constructor
  · exact ⟨(c6_checkpointer_idempotent_acquire.1 2 (by decide)).1,
      (c6_checkpointer_idempotent_acquire.1 2 (by decide)).2.2⟩
  · exact ⟨(c6_checkpointer_idempotent_acquire.2 2 [0, 1, 0] (by decide) (by decide)).2.1,
      (c6_checkpointer_idempotent_acquire.2 2 [0, 1, 0] (by decide) (by decide)).2.2⟩

/-- C10: releasing the checkpointer closes the pool but leaves the
module-level pool and handle variables set, so a later acquire takes the
fast path: it returns the original handle over the now-closed pool and
neither re-creates the pool nor re-runs the schema setup. -/
theorem c10_close_keeps_globals
    (s : CPState) (h p : Nat) (hc : s.checkpointer = some h) (hp : s.pool = some p) :
    (close_checkpointer s).pool = some p ∧
    (close_checkpointer s).checkpointer = some h ∧
    (close_checkpointer s).poolClosed = true ∧
    get_checkpointer (close_checkpointer s) = (close_checkpointer s, h) ∧
    (get_checkpointer (close_checkpointer s)).1.poolsCreated = s.poolsCreated ∧
    (get_checkpointer (close_checkpointer s)).1.setupRuns = s.setupRuns := by
  have hs : s.pool.isSome = true := by rw [hp]; rfl
  refine ⟨?_, ?_, ?_, ?_, ?_, ?_⟩ <;> simp [close_checkpointer, get_checkpointer, hs, hc, hp]

/-- C10 witness: release after a successful acquire, then acquire again. -/
theorem c10_close_keeps_globals_witness :
    get_checkpointer (close_checkpointer steadyCP) = (close_checkpointer steadyCP, 0) ∧
    (get_checkpointer (close_checkpointer steadyCP)).1.setupRuns = 1 :=
  ⟨(c10_close_keeps_globals steadyCP 0 0 rfl rfl).2.2.2.1,
   (c10_close_keeps_globals steadyCP 0 0 rfl rfl).2.2.2.2.2⟩

/-- C8: a GraphInterrupt raised while waiting for the human reply propagates
as-is; every result the wrapper raises is a GraphInterrupt; any other
exception from the interrupt step, the classification call or the base tool
is caught and converted into the literal internal-error string. -/
theorem c8_wrapper_exception_handling
    (interruptCall : Except PyExn String) (llmInvoke : String → Except PyExn String)
    (tool : ToolInput → Except PyExn String) (email : Bool) (tool_input : ToolInput) :
    (∀ p, interruptCall = Except.error (PyExn.graphInterrupt p) →
      call_tool_with_interrupt interruptCall llmInvoke tool email tool_input =
        ⟨Except.error (PyExn.graphInterrupt p), 0, none⟩)
  ∧ (∀ e, (call_tool_with_interrupt interruptCall llmInvoke tool email tool_input).result =
        Except.error e → ∃ p, e = PyExn.graphInterrupt p)
  ∧ (∀ m, interruptCall = Except.error (PyExn.other m) →
      (call_tool_with_interrupt interruptCall llmInvoke tool email tool_input).result =
        Except.ok "ERROR - Action was not completed due to the internal error.")
  ∧ (∀ resp m, interruptCall = Except.ok resp →
      llmInvoke resp = Except.error (PyExn.other m) →
      (call_tool_with_interrupt interruptCall llmInvoke tool email tool_input).result =
        Except.ok "ERROR - Action was not completed due to the internal error.")
  ∧ (∀ resp content m, interruptCall = Except.ok resp → llmInvoke resp = Except.ok content →
      containsSub (pyStrip (pyLower content)).data "proceed".data = true →
      tool (proceedInput email tool_input) = Except.error (PyExn.other m) →
      (call_tool_with_interrupt interruptCall llmInvoke tool email tool_input).result =
        Except.ok "ERROR - Action was not completed due to the internal error.") := by
  refine ⟨?_, ?_, ?_, ?_, ?_⟩
  · intro p hI
    simp [call_tool_with_interrupt, hI, handleWrapExn]
  · intro e he
    cases hI : interruptCall with
    | error e0 =>
      cases e0 with
      | graphInterrupt p =>
        rw [hI] at he
        simp [call_tool_with_interrupt, handleWrapExn] at he
        exact ⟨p, he.symm⟩
      | other m =>
        rw [hI] at he
        simp [call_tool_with_interrupt, handleWrapExn] at he
    | ok resp =>
      rw [hI] at he
      cases hL : llmInvoke resp with
      | error e1 =>
        cases e1 with
        | graphInterrupt p =>
          simp [call_tool_with_interrupt, hL, handleWrapExn] at he
          exact ⟨p, he.symm⟩
        | other m =>
          simp [call_tool_with_interrupt, hL, handleWrapExn] at he
      | ok content =>
        cases hp : containsSub (pyStrip (pyLower content)).data "proceed".data with
        | true =>
          cases htool : tool (proceedInput email tool_input) with
          | ok r =>
            simp [call_tool_with_interrupt, hL, hp, htool] at he
          | error e2 =>
            cases e2 with
            | graphInterrupt p =>
              simp [call_tool_with_interrupt, hL, hp, htool, handleWrapExn] at he
              exact ⟨p, he.symm⟩
            | other m =>
              simp [call_tool_with_interrupt, hL, hp, htool, handleWrapExn] at he
        | false =>
          cases hc : containsSub (pyStrip (pyLower content)).data "changes".data with
          | true => simp [call_tool_with_interrupt, hL, hp, hc] at he
          | false => simp [call_tool_with_interrupt, hL, hp, hc] at he
  · intro m hI
    simp [call_tool_with_interrupt, hI, handleWrapExn]
  · intro resp m hI hL
    simp [call_tool_with_interrupt, hI, hL, handleWrapExn]
  · intro resp content m hI hL hp htool
    simp [call_tool_with_interrupt, hI, hL, hp, htool, handleWrapExn]

/-- C8 witness: the exception theorem applied to a propagating GraphInterrupt,
a failing classification call and a failing base tool. -/
theorem c8_wrapper_exception_handling_witness :
    call_tool_with_interrupt (Except.error (PyExn.graphInterrupt "Check the data"))
        (fun _ => Except.ok "proceed") (fun i => Except.ok i.message) false ⟨"m", []⟩ =
      ⟨Except.error (PyExn.graphInterrupt "Check the data"), 0, none⟩ ∧
    (call_tool_with_interrupt (Except.ok "ok") (fun _ => Except.error (PyExn.other "boom"))
        (fun i => Except.ok i.message) false ⟨"m", []⟩).result =
      Except.ok "ERROR - Action was not completed due to the internal error." ∧
    (call_tool_with_interrupt (Except.ok "ok") (fun _ => Except.ok "proceed")
        (fun _ => Except.error (PyExn.other "api failure")) false ⟨"m", []⟩).result =
      Except.ok "ERROR - Action was not completed due to the internal error." := by
  refine ⟨?_, ?_, ?_⟩
  · exact (c8_wrapper_exception_handling (Except.error (PyExn.graphInterrupt "Check the data"))
      (fun _ => Except.ok "proceed") (fun i => Except.ok i.message) false ⟨"m", []⟩).1
      "Check the data" rfl
  · exact (c8_wrapper_exception_handling (Except.ok "ok")
      (fun _ => Except.error (PyExn.other "boom")) (fun i => Except.ok i.message) false
      ⟨"m", []⟩).2.2.2.1 "ok" "boom" rfl rfl
  · exact (c8_wrapper_exception_handling (Except.ok "ok") (fun _ => Except.ok "proceed")
      (fun _ => Except.error (PyExn.other "api failure")) false ⟨"m", []⟩).2.2.2.2
      "ok" "proceed" "api failure" rfl rfl (by decide) rfl

end LegalDocs
